import Mathlib

/-!
Verification of the infinite-ai-developer pipeline core: a shallow embedding
of the phase state machine (`src/orchestrator/infinite_orchestrator.py`,
`src/orchestrator/ai_orchestrator.py`), the response materializer
(`src/orchestrator/direct_file_writer.py`, `src/tools/repo_api.py`) and the
execution sandbox (`src/tools/sandbox.py`), together with theorems settling
the specification's claims about them.
-/

/-- Pipeline phase tags, from `orchestrator/pipeline_states.py` (the enum the
orchestrator dispatches on; its members appear throughout the handlers). -/
inductive PipelinePhase where
  | plan
  | architect
  | codeWrite
  | testWrite
  | buildRun
  | diagnose
  | repair
  | verify
  | done
deriving DecidableEq, Repr

/-- Observable state touched by `InfiniteOrchestrator._phase_diagnose_infinite`:
the debug-cycle counter, the current phase, the outstanding failure logs
(consumed by the parent handler's prompt) and the bugs-fixed statistic. -/
structure DiagnoseState where
  debugCycleCount : Nat
  phase : PipelinePhase
  lastLogs : String
  totalBugsFixed : Nat
deriving DecidableEq, Repr

/-- Outcome of one run of the DIAGNOSE handler: the new state plus whether the
debugger model was prompted (i.e. `super()._phase_diagnose()` ran, which is
the only place a fix can be materialized). -/
structure DiagnoseOutcome where
  state : DiagnoseState
  promptedDebugger : Bool
deriving DecidableEq, Repr

/-- `InfiniteOrchestrator._phase_diagnose_infinite` (infinite_orchestrator.py
lines 191-205): increment the debug-cycle counter; if it now exceeds
`max_debug_cycles`, force the phase to VERIFY and return; otherwise run the
parent `_phase_diagnose`, which prompts the debugger, materializes any fix and
always ends with `phase = REPAIR` (ai_orchestrator.py line 455), after which
the bugs-fixed counter is incremented. -/
def phaseDiagnoseInfinite (maxDebugCycles : Nat) (s : DiagnoseState) : DiagnoseOutcome :=
  let count := s.debugCycleCount + 1
  if maxDebugCycles < count then
    { state := { s with debugCycleCount := count, phase := PipelinePhase.verify }
      promptedDebugger := false }
  else
    { state := { s with
                  debugCycleCount := count
                  phase := PipelinePhase.repair
                  totalBugsFixed := s.totalBugsFixed + 1 }
      promptedDebugger := true }

/-- Verifier decision parsed from the model's JSON in
`_phase_verify_infinite`: `complete`, `confidence` (default 0), and the
`missing_requirements` / `quality_issues` lists (defaults `[]`). -/
structure VerifyDecision where
  complete : Bool
  confidence : Int
  missingRequirements : List String
  qualityIssues : List String
deriving DecidableEq, Repr

/-- The three ways the verifier model interaction can end in
`_phase_verify_infinite`: a successful call whose content parses as JSON, a
successful call whose content fails to parse, or a failed call. -/
inductive VerifyResponse where
  | parsed (d : VerifyDecision)
  | parseFailed
  | callFailed
deriving DecidableEq, Repr

/-- The confidence threshold hard-coded in `_phase_verify_infinite`
(line 311: `confidence >= 90`). -/
def confidenceThreshold : Int := 90

/-- The minimum workspace file count hard-coded in `_phase_verify_infinite`
(line 251: `len(files) >= 3`). -/
def minFileCount : Nat := 3

/-- Transition computed by `InfiniteOrchestrator._phase_verify_infinite`
(lines 306-338) from the verifier response, the recorded test results
(success flags of the results having a `success` attribute) and the workspace
file count. -/
def verifyTransition (resp : VerifyResponse) (testResults : List Bool)
    (fileCount : Nat) : PipelinePhase :=
  let allTestsPass := testResults.all id
  let hasSufficientFiles := decide (minFileCount ≤ fileCount)
  match resp with
  | VerifyResponse.parsed d =>
      if d.complete && decide (confidenceThreshold ≤ d.confidence) then
        PipelinePhase.done
      else if !d.missingRequirements.isEmpty || !d.qualityIssues.isEmpty then
        PipelinePhase.codeWrite
      else
        PipelinePhase.testWrite
  | VerifyResponse.parseFailed =>
      if allTestsPass && hasSufficientFiles then PipelinePhase.done
      else PipelinePhase.diagnose
  | VerifyResponse.callFailed =>
      if allTestsPass && hasSufficientFiles then PipelinePhase.done
      else PipelinePhase.diagnose

/-- `SandboxResult` (sandbox.py lines 22-31): execution time is abstracted to
a natural number of ticks; the `timeout` field is the timed-out flag. -/
structure SandboxResult where
  success : Bool
  exitCode : Int
  stdout : String
  stderr : String
  executionTime : Nat
  timeout : Bool
  error : Option String
deriving DecidableEq, Repr

/-- How a local-subprocess execution in `Sandbox._run_local` can end:
`communicate` returns, `TimeoutExpired` is raised, or another exception
escapes. -/
inductive LocalOutcome where
  | completed (exitCode : Int) (out err : String)
  | timedOut
  | failed (msg : String)
deriving DecidableEq, Repr

/-- `Sandbox._run_local` (sandbox.py lines 206-268), abstracted over the
subprocess outcome and the elapsed time measured at each return point. -/
def runLocal (outcome : LocalOutcome) (elapsed : Nat) : SandboxResult :=
  match outcome with
  | LocalOutcome.completed exitCode out err =>
      { success := exitCode == 0, exitCode := exitCode, stdout := out
        stderr := err, executionTime := elapsed, timeout := false, error := none }
  | LocalOutcome.timedOut =>
      { success := false, exitCode := -1, stdout := ""
        stderr := "Command timed out", executionTime := elapsed
        timeout := true, error := none }
  | LocalOutcome.failed msg =>
      { success := false, exitCode := -1, stdout := ""
        stderr := "", executionTime := elapsed, timeout := false
        error := some msg }

/-- How a containerized execution in `Sandbox._run_docker` can end: the
project path is missing, `container.wait` returns a status code (with the
container's combined stdout+stderr logs), a timeout-flavoured API error is
raised, or another exception escapes. -/
inductive DockerOutcome where
  | pathMissing (path : String)
  | completed (statusCode : Int) (logs : String)
  | apiTimeout
  | failed (msg : String)
deriving DecidableEq, Repr

/-- `Sandbox._run_docker` (sandbox.py lines 106-204), abstracted over the
container outcome and the elapsed time: on completion the combined log text
goes entirely into `stdout` and `stderr` is set to the empty string
(lines 165-169); on a timeout the same synthetic result as the local backend
is produced (lines 181-191). -/
def runDocker (outcome : DockerOutcome) (elapsed : Nat) : SandboxResult :=
  match outcome with
  | DockerOutcome.pathMissing p =>
      { success := false, exitCode := -1, stdout := ""
        stderr := "", executionTime := 0, timeout := false
        error := some ("Project path does not exist: " ++ p) }
  | DockerOutcome.completed statusCode logs =>
      { success := statusCode == 0, exitCode := statusCode, stdout := logs
        stderr := "", executionTime := elapsed, timeout := false, error := none }
  | DockerOutcome.apiTimeout =>
      { success := false, exitCode := -1, stdout := ""
        stderr := "Command timed out", executionTime := elapsed
        timeout := true, error := none }
  | DockerOutcome.failed msg =>
      { success := false, exitCode := -1, stdout := ""
        stderr := "", executionTime := elapsed, timeout := false
        error := some msg }

/-- State carried across iterations of
`InfiniteOrchestrator.run_autonomous_development`: the current phase, the
iteration counter and the snapshot most recently persisted by
`_save_iteration_state` (phase and iteration at the moment of the save;
`none` if no iteration has saved yet). -/
structure LoopState where
  phase : PipelinePhase
  iterationCount : Nat
  saved : Option (PipelinePhase × Nat)
deriving DecidableEq, Repr

/-- `InfiniteOrchestrator._execute_current_phase` (lines 129-155): dispatch to
the handler of the current phase; an unknown phase (only DONE with this enum)
is sent to DONE; a handler exception (`exec` returning `none`) is caught by
`_handle_phase_error`, which moves to DIAGNOSE, or to REPAIR when already in
DIAGNOSE. The handlers themselves are abstracted as `exec`. -/
def executeCurrentPhase (exec : PipelinePhase → Option PipelinePhase)
    (p : PipelinePhase) : PipelinePhase :=
  if p = PipelinePhase.done then PipelinePhase.done
  else
    match exec p with
    | some p' => p'
    | none =>
        if p = PipelinePhase.diagnose then PipelinePhase.repair
        else PipelinePhase.diagnose

/-- One iteration of the main loop (lines 85-110): bump the iteration
counter, execute the current phase, run the (phase-preserving) comprehensive
testing step, then persist the state via `_save_iteration_state`, which
records the phase and iteration of this very moment. -/
def runIteration (exec : PipelinePhase → Option PipelinePhase)
    (s : LoopState) : LoopState :=
  let count := s.iterationCount + 1
  let p' := executeCurrentPhase exec s.phase
  { phase := p', iterationCount := count, saved := some (p', count) }

/-- The main `while` loop (lines 82-110), with the remaining-iteration budget
`maxIterations - iterationCount` made explicit as fuel: loop while the phase
is not DONE and iterations remain. -/
def runLoop (exec : PipelinePhase → Option PipelinePhase) :
    Nat → LoopState → LoopState
  | 0, s => s
  | fuel + 1, s =>
      if s.phase = PipelinePhase.done then s
      else runLoop exec fuel (runIteration exec s)

/-- The report produced after the loop (lines 112-116): a celebration when
the phase is DONE, otherwise the non-fatal limit-reached panel of
`_handle_max_iterations_reached`. -/
inductive RunReport where
  | completed
  | limitReached
deriving DecidableEq, Repr

/-- `run_autonomous_development`'s main-loop portion (lines 79-116): run the
loop from the initial state with budget `maxIterations` and produce the final
state together with the closing report. -/
def runAutonomousDevelopment (exec : PipelinePhase → Option PipelinePhase)
    (maxIterations : Nat) (s0 : LoopState) : LoopState × RunReport :=
  let s := runLoop exec (maxIterations - s0.iterationCount) s0
  (s, if s.phase = PipelinePhase.done then RunReport.completed
      else RunReport.limitReached)

/-- Result of `AIOrchestrator._phase_architect`: the successor phase plus the
build/test command strings it records (set only when validation succeeds,
ai_orchestrator.py lines 171-172). -/
structure ArchitectResult where
  phase : PipelinePhase
  buildCmd : Option String
  testCmd : Option String
deriving DecidableEq, Repr

/-- `AIOrchestrator._phase_architect` (lines 128-185) abstracted over the two
booleans it branches on: whether the model call succeeded and whether
`validate_ai_response` reported success. On validation success it records the
command strings and advances to CODE_WRITE; on validation failure it goes to
TEST_WRITE; on call failure it goes to CODE_WRITE. -/
def architectTransition (callSuccess validationSuccess : Bool) : ArchitectResult :=
  if callSuccess then
    if validationSuccess then
      { phase := PipelinePhase.codeWrite
        buildCmd := some "python -m pytest"
        testCmd := some "python -m pytest tests/ -v" }
    else
      { phase := PipelinePhase.testWrite, buildCmd := none, testCmd := none }
  else
    { phase := PipelinePhase.codeWrite, buildCmd := none, testCmd := none }

/-- `AIOrchestrator._format_failure_logs` (ai_orchestrator.py lines 600-611):
collect a `TEST FAILURES` section when the test result failed, then one
section per failed static-analysis tool, and join with blank lines. -/
def formatFailureLogs (testResult : SandboxResult)
    (analysisResults : List (String × SandboxResult)) : String :=
  let testLogs := if !testResult.success then
      ["TEST FAILURES:\n" ++ testResult.stderr]
    else []
  let toolLogs := analysisResults.filterMap fun tr =>
    if !tr.2.success then
      some (String.mk (tr.1.data.map Char.toUpper) ++ " ISSUES:\n" ++ tr.2.stderr)
    else none
  String.intercalate "\n\n" (testLogs ++ toolLogs)

/-- Boolean prefix test on character lists. -/
def isPrefixOfL : List Char → List Char → Bool
  | [], _ => true
  | _ :: _, [] => false
  | a :: as, b :: bs => a == b && isPrefixOfL as bs

/-- Boolean substring test: does `needle` occur contiguously in the second
list? Mirrors Python's `in` on strings. -/
def containsSub (needle : List Char) : List Char → Bool
  | [] => isPrefixOfL needle []
  | c :: rest => isPrefixOfL needle (c :: rest) || containsSub needle rest

/-- `needle in hay` on strings, as used throughout
`_intelligent_filename_from_content`. -/
def containsStr (hay needle : String) : Bool :=
  containsSub needle.data hay.data

/-- Python's `str.lower()` restricted to ASCII, as applied to the generated
code contents. -/
def lowerStr (s : String) : String :=
  String.mk (s.data.map Char.toLower)

/-- `DirectFileWriter._intelligent_filename_from_content`
(direct_file_writer.py lines 260-309): the fixed priority chain of keyword
checks. The first check runs against the raw content; all later checks run
against the lowercased content. -/
def intelligentFilename (content : String) (index : Nat) : String :=
  let cl := lowerStr content
  if containsStr content "if __name__ == \"__main__\"" &&
      (containsStr content "main()" || containsStr content "app()") then
    "main.py"
  else if containsStr cl "class.*user" || containsStr cl "def.*user" then
    if containsStr cl "api" || containsStr cl "endpoint" then "api/users.py"
    else "services/user_service.py"
  else if containsStr cl "class.*auth" || containsStr cl "def.*auth" ||
      containsStr cl "login" then
    if containsStr cl "api" || containsStr cl "endpoint" then "api/auth.py"
    else "auth/authentication.py"
  else if containsStr cl "database" || containsStr cl "db" ||
      containsStr cl "sqlite" then
    if containsStr cl "model" then "database/models.py"
    else "database/connection.py"
  else if containsStr cl "api" || containsStr cl "endpoint" ||
      containsStr cl "route" then
    "api/routes.py"
  else if containsStr cl "test" || containsStr cl "assert" then
    "tests/test_" ++ toString (index + 1) ++ ".py"
  else if containsStr cl "config" || containsStr cl "settings" then
    "config/settings.py"
  else if containsStr cl "model" && containsStr cl "class" then
    "models/data_models.py"
  else if containsStr cl "util" || containsStr cl "helper" then
    "utils/helpers.py"
  else if containsStr cl "password" then
    "tools/password_generator.py"
  else if containsStr cl "game" || containsStr cl "guess" then
    "game.py"
  else if containsStr cl "calculator" || containsStr cl "add" then
    "calculator.py"
  else if containsStr cl "scraper" || containsStr cl "scrape" then
    "scrapers/web_scraper.py"
  else if containsStr cl "frontend" || containsStr cl "html" ||
      containsStr cl "css" then
    "frontend/app.py"
  else if containsStr cl "static" then
    "static/main.js"
  else if containsStr cl "template" then
    "templates/index.html"
  else
    "modules/module_" ++ toString (index + 1) ++ ".py"

/-- Python whitespace characters recognised by `str.strip()` and `\s`. -/
def isPyWS (c : Char) : Bool :=
  c == ' ' || c == '\t' || c == '\n' || c == '\r' || c == '\x0b' || c == '\x0c'

/-- Python's `str.strip()` on a character list. -/
def stripChars (l : List Char) : List Char :=
  ((l.dropWhile isPyWS).reverse.dropWhile isPyWS).reverse

/-- `[a-zA-Z_]`, the first character of the identifier groups in the import
regexes of `_extract_dependencies`. -/
def isIdentStart (c : Char) : Bool :=
  ('a' ≤ c && c ≤ 'z') || ('A' ≤ c && c ≤ 'Z') || c == '_'

/-- `[a-zA-Z0-9_]`, the following characters of those identifier groups. -/
def isIdentChar (c : Char) : Bool :=
  isIdentStart c || ('0' ≤ c && c ≤ '9')

/-- Consume an exact literal from the front of the input, returning the rest
on success. -/
def consumeLit : List Char → List Char → Option (List Char)
  | [], l => some l
  | _ :: _, [] => none
  | c :: cs, d :: ds => if c = d then consumeLit cs ds else none

/-- Consume one maximal `[a-zA-Z_][a-zA-Z0-9_]*` identifier from the front of
the input, failing if the first character is not an identifier start. -/
def takeIdent : List Char → Option (List Char × List Char)
  | [] => none
  | c :: rest =>
      if isIdentStart c then
        some (c :: rest.takeWhile isIdentChar, rest.dropWhile isIdentChar)
      else none

/-- `\s+` followed by skipping all further whitespace: requires at least one
whitespace character. -/
def ws1 : List Char → Option (List Char)
  | [] => none
  | c :: rest => if isPyWS c then some (rest.dropWhile isPyWS) else none

/-- First-success choice between the results of the two patterns tried on a
line (at most one can match, since a line cannot start with both `import`
and `from`). -/
def orElseO : Option α → Option α → Option α
  | some x, _ => some x
  | none, b => b

/-- The first regex of `DirectFileWriter._extract_dependencies`
(direct_file_writer.py line 366), `^import\s+([a-zA-Z_][a-zA-Z0-9_]*)`,
applied to a stripped line. -/
def importLineFirst (s : List Char) : Option String :=
  (consumeLit "import".data s).bind fun r =>
    (ws1 r).bind fun r2 =>
      (takeIdent r2).map fun t => String.mk t.1

/-- The second regex of `DirectFileWriter._extract_dependencies`
(direct_file_writer.py line 367),
`^from\s+([a-zA-Z_][a-zA-Z0-9_]*)\s+import`, applied to a stripped line. -/
def importLineSecond (s : List Char) : Option String :=
  (consumeLit "from".data s).bind fun r =>
    (ws1 r).bind fun r2 =>
      (takeIdent r2).bind fun pr =>
        (ws1 pr.2).bind fun r4 =>
          (consumeLit "import".data r4).map fun _ => String.mk pr.1

/-- The module captured from one line by the regex loop of
`DirectFileWriter._extract_dependencies` (lines 396-410): strip the line and
try the two patterns in order. -/
def importLineModule (line : List Char) : Option String :=
  orElseO (importLineFirst (stripChars line)) (importLineSecond (stripChars line))

/-- Python's `str.split('\n')`. -/
def splitOnNl : List Char → List (List Char)
  | [] => [[]]
  | c :: rest =>
      if c = '\n' then [] :: splitOnNl rest
      else
        match splitOnNl rest with
        | [] => [[c]]
        | h :: t => (c :: h) :: t

/-- The standard-library exclusion set of `_extract_dependencies`
(direct_file_writer.py lines 371-377). -/
def stdlibModules : List String :=
  ["os", "sys", "re", "json", "urllib", "pathlib", "logging", "datetime",
   "collections", "itertools", "functools", "typing", "argparse",
   "subprocess", "threading", "multiprocessing", "asyncio", "time",
   "random", "math", "string", "io", "tempfile", "shutil", "glob", "csv",
   "xml", "html", "http", "email", "base64", "hashlib", "hmac", "secrets",
   "uuid"]

/-- The import-name to pip-package-name remapping table of
`_extract_dependencies` (direct_file_writer.py lines 380-394). -/
def packageMappings : List (String × String) :=
  [("cv2", "opencv-python"), ("PIL", "Pillow"), ("sklearn", "scikit-learn"),
   ("yaml", "PyYAML"), ("bs4", "beautifulsoup4"),
   ("requests_oauthlib", "requests-oauthlib"), ("jwt", "PyJWT"),
   ("dotenv", "python-dotenv"), ("psycopg2", "psycopg2-binary"),
   ("MySQLdb", "mysqlclient"), ("discord", "discord.py"),
   ("telebot", "pyTelegramBotAPI"), ("yt_dlp", "yt-dlp")]

/-- First-match lookup in an association list of strings. -/
def lookupStr : List (String × String) → String → Option String
  | [], _ => none
  | (k, v) :: rest, m => if k = m then some v else lookupStr rest m

/-- `package_mappings.get(module_name, module_name)`. -/
def remapPackage (m : String) : String :=
  (lookupStr packageMappings m).getD m

/-- `DirectFileWriter._extract_dependencies` (direct_file_writer.py
lines 358-412): split into lines, strip each, capture the module of
each import-style line, drop standard-library names, and remap the rest. -/
def extractDependencies (content : String) : Finset String :=
  (splitOnNl content.data).foldl
    (fun acc line =>
      match importLineModule line with
      | some m => if m ∈ stdlibModules then acc else insert (remapPackage m) acc
      | none => acc)
    ∅

/-- Fuelled worker for `consumeDots`: consume `(.identifier)*` from the front
of the input. The fuel is an upper bound on the input length. -/
def consumeDotsGo : Nat → List Char → List Char
  | 0, l => l
  | _ + 1, [] => []
  | fuel + 1, c :: rest =>
      if c = '.' then
        match takeIdent rest with
        | some p => consumeDotsGo fuel p.2
        | none => c :: rest
      else c :: rest

/-- Consume the `(.identifier)*` tail of a dotted module path. -/
def consumeDots (l : List Char) : List Char :=
  consumeDotsGo l.length l

/-- Modelled from the spec: the top-level component of one dotted module path
(`ident(.ident)*`), with the rest of the input after the whole path. -/
def takeDotted (l : List Char) : Option (List Char × List Char) :=
  match takeIdent l with
  | some (m, r) => some (m, consumeDots r)
  | none => none

/-- Fuelled worker for `specModuleList`: the top-level names of a
comma-separated list of dotted module paths. -/
def specModuleListGo : Nat → List Char → List String
  | 0, _ => []
  | fuel + 1, l =>
      match takeDotted l with
      | none => []
      | some (m, r) =>
          match r.dropWhile isPyWS with
          | [] => [String.mk m]
          | c :: r3 =>
              if c = ',' then
                String.mk m :: specModuleListGo fuel (r3.dropWhile isPyWS)
              else [String.mk m]

/-- Modelled from the spec (§3 DependencyManifest, §4.2 dependency
discovery): the top-level module names of a comma-separated import list. -/
def specModuleList (l : List Char) : List String :=
  specModuleListGo (l.length + 1) l

/-- Modelled from the spec: the `import`-statement reading of a stripped
line — every top-level module name of the comma-separated list after
`import`. -/
def specLineFirst (s : List Char) : Option (List String) :=
  (consumeLit "import".data s).bind fun r =>
    (ws1 r).map fun r2 => specModuleList r2

/-- Modelled from the spec: the `from`-statement reading of a stripped line
— the top-level component of the (possibly dotted) module named between
`from` and `import`. -/
def specLineSecond (s : List Char) : Option (List String) :=
  (consumeLit "from".data s).bind fun r =>
    (ws1 r).bind fun r2 =>
      (takeDotted r2).bind fun pr =>
        (ws1 pr.2).bind fun r4 =>
          (consumeLit "import".data r4).map fun _ => [String.mk pr.1]

/-- Modelled from the spec: the set of top-level module names appearing in
the import-style statements of one line — every member of the
comma-separated list after `import`, or the (possibly dotted) module named
between `from` and `import`. The spec fixes no tokenization, so the
line-anchored matching of the source is kept (in particular an `as`-clause
ends the scan of a comma-separated list). -/
def specLineModules (line : List Char) : List String :=
  (orElseO (specLineFirst (stripChars line)) (specLineSecond (stripChars line))).getD []

/-- Modelled from the spec: the dependency manifest as the spec words it —
the set of top-level module names appearing in import-style statements of
the content, minus the standard-library exclusion set, remapped through
the import-name-to-package-name table. -/
def specDependencies (content : String) : Finset String :=
  (splitOnNl content.data).foldl
    (fun acc line =>
      (specLineModules line).foldl
        (fun acc2 m =>
          if m ∈ stdlibModules then acc2 else insert (remapPackage m) acc2)
        acc)
    ∅

/-- A workspace file tree: an association of workspace-relative paths to
file contents. -/
abbrev FileSystem := List (String × String)

/-- Read the file at a path, if present. -/
def fsGet : FileSystem → String → Option String
  | [], _ => none
  | (q, d) :: rest, p => if q = p then some d else fsGet rest p

/-- Write a file, replacing any existing entry at the same path (parent
directories are implicit in this model). -/
def fsSet : FileSystem → String → String → FileSystem
  | [], p, c => [(p, c)]
  | (q, d) :: rest, p, c =>
      if q = p then (p, c) :: rest else (q, d) :: fsSet rest p c

/-- A git history: one entry per commit, recording the message and the paths
staged for it. -/
abbrev History := List (String × List String)

/-- Python's `.py`-suffix test used by `_auto_install_dependencies`. -/
def endsWithPy (p : String) : Bool :=
  isPrefixOfL ".py".data.reverse p.data.reverse

/-- The union of the dependencies extracted from the newly created `.py`
files, as scanned by `DirectFileWriter._auto_install_dependencies`
(direct_file_writer.py lines 325-356). -/
def depsOfFiles (fs : FileSystem) (created : List String) : Finset String :=
  created.foldl
    (fun acc p =>
      if endsWithPy p then
        match fsGet fs p with
        | some content => acc ∪ extractDependencies content
        | none => acc
      else acc)
    ∅

/-- The text of the generated `requirements.txt`: the sorted dependency
names, one per line. -/
def manifestText (deps : Finset String) : String :=
  String.intercalate "\n" (deps.sort (· ≤ ·)) ++ "\n"

/-- `DirectFileWriter._auto_install_dependencies` (lines 325-356): scan the
created `.py` files; when any dependency is found, write `requirements.txt`
(the pip install attempts have no workspace effect and are not modelled). -/
def autoInstallDependencies (fs : FileSystem) (created : List String) : FileSystem :=
  let deps := depsOfFiles fs created
  if deps = ∅ then fs else fsSet fs "requirements.txt" (manifestText deps)

/-- Modelled from the spec: the dependency manifest of a whole batch as the
spec words it — the union, over the newly written `.py` files, of the
spec-level dependency sets. -/
def specDepsOfFiles (fs : FileSystem) (created : List String) : Finset String :=
  created.foldl
    (fun acc p =>
      if endsWithPy p then
        match fsGet fs p with
        | some content => acc ∪ specDependencies content
        | none => acc
      else acc)
    ∅

/-- Side condition for the amended dependency claim: a file content (when
present) whose text is free of commas and dots, so that every import-style
line names a single undotted module. -/
def contentOk : Option String → Bool
  | none => true
  | some content =>
      !decide (',' ∈ content.data) && !decide ('.' ∈ content.data)

/-- Drop the single leading slash a path may carry
(`if file_path.startswith('/')`). -/
def stripLeadingSlash (p : String) : String :=
  match p.data with
  | '/' :: rest => String.mk rest
  | _ => p

/-- Result dictionary returned by `DirectFileWriter.write_multiple_files`. -/
structure MultiWriteResult where
  success : Bool
  filesCreated : List String
  error : Option String
deriving DecidableEq, Repr

/-- `DirectFileWriter.write_multiple_files` (direct_file_writer.py
lines 109-155): write every file of the batch, run the dependency
auto-install, then attempt one commit of all written paths. A commit
exception is only logged (line 149) — the returned result still reports
success and carries no error field. -/
def writeMultipleFiles (fs : FileSystem) (hist : History)
    (files : List (String × String)) (msg : String) (commitOk : Bool) :
    FileSystem × History × MultiWriteResult :=
  let step := files.foldl
    (fun (acc : FileSystem × List String) f =>
      let p := stripLeadingSlash f.1
      (fsSet acc.1 p f.2, acc.2 ++ [p]))
    (fs, [])
  let fs2 := autoInstallDependencies step.1 step.2
  let hist' :=
    if !step.2.isEmpty && commitOk then hist ++ [(msg, step.2)] else hist
  (fs2, hist', { success := true, filesCreated := step.2, error := none })

/-- `FileEdit` (repo_api.py lines 22-28): path, mode (`create`, `replace` or
`patch`) and the optional content or patch body. -/
structure FileEdit where
  path : String
  mode : String
  content : Option String
  patch : Option String
deriving DecidableEq, Repr

/-- The accumulator threaded through the edit loop of
`RepoService.write_files`: the evolving tree plus the `files_created`,
`files_modified` and `errors` lists of the result dictionary. -/
structure EditAcc where
  fs : FileSystem
  filesCreated : List String
  filesModified : List String
  errors : List String
deriving DecidableEq, Repr

/-- One edit of the loop in `RepoService.write_files` (repo_api.py
lines 203-240). `patchFn` abstracts `_apply_patch` (an external `git apply`
invocation): `none` means the patch did not apply. A `create` on an existing
path and a `patch` on a missing path are rejected before writing; an absent
content or patch body raises inside the per-edit `try` and lands in the
errors list; an unrecognised mode falls through the if/elif chain and does
nothing. -/
def applyEdit (patchFn : FileSystem → String → String → Option FileSystem)
    (acc : EditAcc) (e : FileEdit) : EditAcc :=
  if e.mode = "create" then
    if (fsGet acc.fs e.path).isSome then
      { acc with errors := acc.errors ++ ["File already exists: " ++ e.path] }
    else
      match e.content with
      | some c =>
          { acc with
              fs := fsSet acc.fs e.path c
              filesCreated := acc.filesCreated ++ [e.path] }
      | none =>
          { acc with errors := acc.errors ++ ["Error editing " ++ e.path] }
  else if e.mode = "replace" then
    match e.content with
    | some c =>
        if e.path ∈ acc.filesCreated then
          { acc with fs := fsSet acc.fs e.path c }
        else
          { acc with
              fs := fsSet acc.fs e.path c
              filesModified := acc.filesModified ++ [e.path] }
    | none =>
        { acc with errors := acc.errors ++ ["Error editing " ++ e.path] }
  else if e.mode = "patch" then
    if (fsGet acc.fs e.path).isNone then
      { acc with
          errors := acc.errors ++ ["Cannot patch non-existent file: " ++ e.path] }
    else
      match e.patch with
      | some pb =>
          match patchFn acc.fs e.path pb with
          | some fs' =>
              { acc with
                  fs := fs'
                  filesModified := acc.filesModified ++ [e.path] }
          | none =>
              { acc with
                  errors := acc.errors ++ ["Failed to apply patch to: " ++ e.path] }
      | none =>
          { acc with
              errors := acc.errors ++ ["Failed to apply patch to: " ++ e.path] }
  else acc

/-- Result dictionary returned by `RepoService.write_files`. -/
structure WriteFilesResult where
  success : Bool
  filesCreated : List String
  filesModified : List String
  errors : List String
deriving DecidableEq, Repr

/-- `RepoService.write_files` (repo_api.py lines 183-260): apply every edit,
then — only when something was written and no error occurred — stage and
commit all written paths as one history entry. A failing commit (`commitOk =
false`) appends a commit error and clears `success`; the final `success` flag
is true exactly when the errors list is empty. -/
def writeFiles (patchFn : FileSystem → String → String → Option FileSystem)
    (fs : FileSystem) (hist : History) (edits : List FileEdit) (msg : String)
    (commitOk : Bool) : FileSystem × History × WriteFilesResult :=
  let acc := edits.foldl (applyEdit patchFn)
    { fs := fs, filesCreated := [], filesModified := [], errors := [] }
  let modifiedFiles := acc.filesCreated ++ acc.filesModified
  if !modifiedFiles.isEmpty && acc.errors.isEmpty then
    if commitOk then
      (acc.fs, hist ++ [(msg, modifiedFiles)],
       { success := true, filesCreated := acc.filesCreated
         filesModified := acc.filesModified, errors := [] })
    else
      (acc.fs, hist,
       { success := false, filesCreated := acc.filesCreated
         filesModified := acc.filesModified
         errors := ["Git commit failed"] })
  else
    (acc.fs, hist,
     { success := acc.errors.isEmpty, filesCreated := acc.filesCreated
       filesModified := acc.filesModified, errors := acc.errors })

/-- Claim C1: once the debug-cycle counter exceeds `max_debug_cycles` after
its increment, the DIAGNOSE handler sets the phase to VERIFY and returns
without prompting the debugger or touching the bugs-fixed statistic,
regardless of the content of the outstanding failure logs (the whole input
state, failure logs included, is universally quantified and the result is
fully determined). -/
theorem diagnose_forces_verify_after_ceiling
    (maxDebugCycles : Nat) (s : DiagnoseState)
    (h : maxDebugCycles < s.debugCycleCount + 1) :
    phaseDiagnoseInfinite maxDebugCycles s =
      { state := { s with
                    debugCycleCount := s.debugCycleCount + 1
                    phase := PipelinePhase.verify }
        promptedDebugger := false } := by
  simp [phaseDiagnoseInfinite, h]

/-- Witness for C1: at the ceiling 2 with counter already 2, the handler
moves to VERIFY without prompting, whatever the logs say. -/
theorem diagnose_forces_verify_after_ceiling_witness :
    phaseDiagnoseInfinite 2 ⟨2, PipelinePhase.diagnose, "FAILED test_calc", 7⟩ =
      { state := ⟨3, PipelinePhase.verify, "FAILED test_calc", 7⟩
        promptedDebugger := false } :=
  diagnose_forces_verify_after_ceiling 2
    ⟨2, PipelinePhase.diagnose, "FAILED test_calc", 7⟩ (by decide)

/-- Claim C4: with a parsed verifier response the run reaches DONE exactly
when the decision is complete with confidence at or above the threshold,
otherwise CODE_WRITE exactly when the decision names a missing requirement
or quality issue and TEST_WRITE exactly when it names none; on a parse
failure or a failed call the run reaches DONE exactly when all recorded test
results succeeded and the file count meets the minimum, and DIAGNOSE
otherwise. -/
theorem verify_transition_characterization
    (d : VerifyDecision) (testResults : List Bool) (fileCount : Nat) :
    ((verifyTransition (VerifyResponse.parsed d) testResults fileCount
        = PipelinePhase.done)
      ↔ (d.complete = true ∧ confidenceThreshold ≤ d.confidence))
    ∧ ((verifyTransition (VerifyResponse.parsed d) testResults fileCount
        = PipelinePhase.codeWrite)
      ↔ (¬(d.complete = true ∧ confidenceThreshold ≤ d.confidence)
          ∧ (d.missingRequirements ≠ [] ∨ d.qualityIssues ≠ [])))
    ∧ ((verifyTransition (VerifyResponse.parsed d) testResults fileCount
        = PipelinePhase.testWrite)
      ↔ (¬(d.complete = true ∧ confidenceThreshold ≤ d.confidence)
          ∧ d.missingRequirements = [] ∧ d.qualityIssues = []))
    ∧ ((verifyTransition VerifyResponse.parseFailed testResults fileCount
        = PipelinePhase.done)
      ↔ (testResults.all id = true ∧ minFileCount ≤ fileCount))
    ∧ ((verifyTransition VerifyResponse.parseFailed testResults fileCount
        = PipelinePhase.done)
      ∨ (verifyTransition VerifyResponse.parseFailed testResults fileCount
        = PipelinePhase.diagnose))
    ∧ (verifyTransition VerifyResponse.callFailed testResults fileCount
        = verifyTransition VerifyResponse.parseFailed testResults fileCount) := by
  refine ⟨?_, ?_, ?_, ?_, ?_, rfl⟩ <;>
    · simp only [verifyTransition]
      split_ifs <;> simp_all <;> tauto

/-- Witness for C4: a complete decision at confidence 95 with three files
and passing tests reaches DONE. -/
theorem verify_transition_characterization_witness :
    verifyTransition (VerifyResponse.parsed ⟨true, 95, [], []⟩) [true] 3
      = PipelinePhase.done :=
  (verify_transition_characterization ⟨true, 95, [], []⟩ [true] 3).1.mpr
    ⟨rfl, by decide⟩

/-- Claim C5: a timed-out command yields `success = false`, the timed-out
flag set, and the non-empty synthetic stderr message, and the local and
containerized backends produce the identical result. -/
theorem timeout_result_uniform_across_backends (t : Nat) :
    runLocal LocalOutcome.timedOut t = runDocker DockerOutcome.apiTimeout t
    ∧ (runLocal LocalOutcome.timedOut t).success = false
    ∧ (runLocal LocalOutcome.timedOut t).timeout = true
    ∧ (runLocal LocalOutcome.timedOut t).stderr = "Command timed out"
    ∧ (runLocal LocalOutcome.timedOut t).stderr ≠ "" :=
  ⟨rfl, rfl, rfl, rfl, fun h => (by decide : ¬("Command timed out" = "")) h⟩

/-- Claim C6 counterexample: when the architect model call succeeds but the
response fails structural validation, the handler moves to TEST_WRITE, not
CODE_WRITE — and there is no caller-supplied edge-configuration flag
involved, the two booleans are the handler's only inputs. -/
theorem architect_validation_failure_goes_testWrite :
    (architectTransition true false).phase = PipelinePhase.testWrite
    ∧ (architectTransition true false).phase ≠ PipelinePhase.codeWrite := by
  decide

/-- Claim C6 (amended): the ARCHITECT handler advances to CODE_WRITE when
validation succeeds or the model call fails, and to TEST_WRITE exactly when
the call succeeds but the response fails structural validation; the
build/test command strings are recorded only on validation success. -/
theorem architect_transition_characterization (callSuccess validationSuccess : Bool) :
    ((architectTransition callSuccess validationSuccess).phase = PipelinePhase.testWrite
      ↔ (callSuccess = true ∧ validationSuccess = false))
    ∧ ((architectTransition callSuccess validationSuccess).phase = PipelinePhase.codeWrite
      ↔ (callSuccess = false ∨ validationSuccess = true))
    ∧ (architectTransition true true).buildCmd = some "python -m pytest"
    ∧ (architectTransition true true).testCmd = some "python -m pytest tests/ -v" := by
  cases callSuccess <;> cases validationSuccess <;> decide

/-- Witness for C6 (amended): a failed call still advances to CODE_WRITE. -/
theorem architect_transition_characterization_witness :
    (architectTransition false false).phase = PipelinePhase.codeWrite :=
  (architect_transition_characterization false false).2.1.mpr (Or.inl rfl)

/-- Claim C10: a containerized command that runs to completion returns the
container's combined log text entirely in `stdout` with `stderr` equal to the
empty string, so the failure-log formatter — which prints only `stderr` for
the test section — emits an empty TEST FAILURES section for such a run. -/
theorem docker_completed_puts_all_output_in_stdout
    (code : Int) (logs : String) (t : Nat) :
    (runDocker (DockerOutcome.completed code logs) t).stderr = ""
    ∧ (runDocker (DockerOutcome.completed code logs) t).stdout = logs
    ∧ (runDocker (DockerOutcome.completed code logs) t).success = (code == 0)
    ∧ formatFailureLogs (runDocker (DockerOutcome.completed 1 logs) t) []
        = "TEST FAILURES:\n" :=
  ⟨rfl, rfl, rfl, rfl⟩

/-- The loop preserves the agreement between the persisted snapshot and the
live state: once a snapshot matches the current phase and iteration, it
still does after any number of further iterations. -/
theorem runLoop_saved_invariant (exec : PipelinePhase → Option PipelinePhase)
    (fuel : Nat) :
    ∀ s : LoopState, s.saved = some (s.phase, s.iterationCount) →
      (runLoop exec fuel s).saved =
        some ((runLoop exec fuel s).phase, (runLoop exec fuel s).iterationCount) := by
  induction fuel with
  | zero => intro s h; simpa [runLoop] using h
  | succ n ih =>
      intro s h
      by_cases hd : s.phase = PipelinePhase.done
      · simpa [runLoop, hd] using h
      · rw [runLoop, if_neg hd]
        exact ih (runIteration exec s) rfl

/-- When the loop stops with a phase other than DONE, it has consumed its
whole budget: the final iteration count is the initial one plus the fuel. -/
theorem runLoop_count_exhausted (exec : PipelinePhase → Option PipelinePhase)
    (fuel : Nat) :
    ∀ s : LoopState, (runLoop exec fuel s).phase ≠ PipelinePhase.done →
      (runLoop exec fuel s).iterationCount = s.iterationCount + fuel := by
  induction fuel with
  | zero => intro s _; simp [runLoop]
  | succ n ih =>
      intro s h
      by_cases hd : s.phase = PipelinePhase.done
      · rw [runLoop, if_pos hd] at h
        exact absurd hd h
      · rw [runLoop, if_neg hd] at h ⊢
        rw [ih _ h]
        simp [runIteration]
        omega

/-- Claim C3: whatever the handlers do (`exec`, covering raised exceptions
as `none`), when the loop terminates with the phase not equal to DONE it has
reached `maxIterations`, the closing report is the non-fatal limit-reached
one, and the snapshot persisted by the last iteration records exactly the
phase and iteration count held at the moment of termination. The loop is a
total function, so no unhandled exception can escape it. -/
theorem loop_limit_reached (exec : PipelinePhase → Option PipelinePhase)
    (maxIterations : Nat) (s0 : LoopState)
    (hiter : s0.iterationCount < maxIterations)
    (hnotdone : (runAutonomousDevelopment exec maxIterations s0).1.phase
      ≠ PipelinePhase.done) :
    (runAutonomousDevelopment exec maxIterations s0).2 = RunReport.limitReached
    ∧ (runAutonomousDevelopment exec maxIterations s0).1.iterationCount
        = maxIterations
    ∧ (runAutonomousDevelopment exec maxIterations s0).1.saved =
        some ((runAutonomousDevelopment exec maxIterations s0).1.phase,
              (runAutonomousDevelopment exec maxIterations s0).1.iterationCount) := by
  have hfuel : ∃ n, maxIterations - s0.iterationCount = n + 1 :=
    ⟨maxIterations - s0.iterationCount - 1, by omega⟩
  obtain ⟨n, hn⟩ := hfuel
  simp only [runAutonomousDevelopment] at hnotdone ⊢
  refine ⟨by simp [hnotdone], ?_, ?_⟩
  · have := runLoop_count_exhausted exec (maxIterations - s0.iterationCount) s0 hnotdone
    omega
  · rw [hn] at hnotdone ⊢
    by_cases hd : s0.phase = PipelinePhase.done
    · rw [runLoop, if_pos hd] at hnotdone
      exact absurd hd hnotdone
    · rw [runLoop, if_neg hd]
      exact runLoop_saved_invariant exec n (runIteration exec s0) rfl

/-- Witness for C3: two iterations of a handler that always stays in PLAN
exhaust a budget of 2; the report is limit-reached and the persisted
snapshot matches the final state. -/
theorem loop_limit_reached_witness :
    (runAutonomousDevelopment (fun _ => some PipelinePhase.plan) 2
        ⟨PipelinePhase.plan, 0, none⟩).2 = RunReport.limitReached
    ∧ (runAutonomousDevelopment (fun _ => some PipelinePhase.plan) 2
        ⟨PipelinePhase.plan, 0, none⟩).1.iterationCount = 2
    ∧ (runAutonomousDevelopment (fun _ => some PipelinePhase.plan) 2
        ⟨PipelinePhase.plan, 0, none⟩).1.saved =
        some ((runAutonomousDevelopment (fun _ => some PipelinePhase.plan) 2
            ⟨PipelinePhase.plan, 0, none⟩).1.phase,
          (runAutonomousDevelopment (fun _ => some PipelinePhase.plan) 2
            ⟨PipelinePhase.plan, 0, none⟩).1.iterationCount) :=
  loop_limit_reached (fun _ => some PipelinePhase.plan) 2
    ⟨PipelinePhase.plan, 0, none⟩ (by decide) (by decide)

/-- Claim C2 counterexample: `DirectFileWriter.write_multiple_files` with a
failing commit writes the batch file, creates no history entry, and still
returns `success = true` with no error field — the commit failure is not
reported in the returned result, so the caller cannot detect it. -/
theorem writeMultipleFiles_swallows_commit_error :
    (writeMultipleFiles [] [] [("a.py", "x = 1")] "add files" false).2.1 = []
    ∧ (writeMultipleFiles [] [] [("a.py", "x = 1")] "add files" false).2.2.success
        = true
    ∧ (writeMultipleFiles [] [] [("a.py", "x = 1")] "add files" false).2.2.error
        = none
    ∧ fsGet (writeMultipleFiles [] [] [("a.py", "x = 1")] "add files" false).1 "a.py"
        = some "x = 1" := by
  decide

/-- One edit with a recognised mode always extends at least one of the three
result lists (creations, modifications, errors) — or, for a `replace` of a
path created earlier in the batch, leaves an already non-empty creations
list alone. -/
theorem applyEdit_progress (patchFn : FileSystem → String → String → Option FileSystem)
    (acc : EditAcc) (e : FileEdit)
    (hm : e.mode = "create" ∨ e.mode = "replace" ∨ e.mode = "patch") :
    (applyEdit patchFn acc e).filesCreated ++ (applyEdit patchFn acc e).filesModified
        ++ (applyEdit patchFn acc e).errors ≠ [] := by
  obtain ⟨p, m, c, pb⟩ := e
  rcases hm with hm | hm | hm <;> subst hm <;>
    simp only [applyEdit] <;>
    split_ifs <;>
    (try split) <;>
    (try split) <;>
    simp_all [List.append_eq_nil] <;>
    try exact fun h1 => absurd h1 (List.ne_nil_of_mem (by assumption))

/-- No edit ever shrinks the three result lists: once their concatenation is
non-empty it stays non-empty. -/
theorem applyEdit_preserves_nonempty
    (patchFn : FileSystem → String → String → Option FileSystem)
    (acc : EditAcc) (e : FileEdit)
    (h : acc.filesCreated ++ acc.filesModified ++ acc.errors ≠ []) :
    (applyEdit patchFn acc e).filesCreated ++ (applyEdit patchFn acc e).filesModified
        ++ (applyEdit patchFn acc e).errors ≠ [] := by
  obtain ⟨p, m, c, pb⟩ := e
  simp only [applyEdit]
  split_ifs <;> (try split) <;> (try split) <;> simp_all [List.append_eq_nil]

/-- Processing a non-empty batch of recognised edits leaves a non-empty
concatenation of creations, modifications and errors. -/
theorem foldl_applyEdit_nonempty
    (patchFn : FileSystem → String → String → Option FileSystem) :
    ∀ (edits : List FileEdit) (acc : EditAcc),
      (∀ e ∈ edits, e.mode = "create" ∨ e.mode = "replace" ∨ e.mode = "patch") →
      edits ≠ [] →
      (edits.foldl (applyEdit patchFn) acc).filesCreated
          ++ (edits.foldl (applyEdit patchFn) acc).filesModified
          ++ (edits.foldl (applyEdit patchFn) acc).errors ≠ [] := by
  intro edits
  induction edits with
  | nil => intro acc _ hne; exact absurd rfl hne
  | cons e rest ih =>
      intro acc hmodes _
      rw [List.foldl_cons]
      rcases rest with _ | ⟨e2, rest2⟩
      · simpa using applyEdit_progress patchFn acc e (hmodes e (by simp))
      · have hrest : ∀ x ∈ e2 :: rest2,
            x.mode = "create" ∨ x.mode = "replace" ∨ x.mode = "patch" :=
          fun x hx => hmodes x (List.mem_cons_of_mem e hx)
        exact ih (applyEdit patchFn acc e) hrest (by simp)

/-- Claim C2 (amended): `RepoService.write_files` is atomic with respect to
the history: for a non-empty batch of recognised edits, either the result
reports success with no errors and the history gains exactly one new entry
covering exactly the reported created and modified paths, or the history is
unchanged, the result reports failure and a non-empty errors list (a commit
error or per-edit errors). `DirectFileWriter.write_multiple_files` keeps the
all-or-nothing history entry but, as the counterexample shows, reports a
commit failure only to the logger, never in its returned result. -/
theorem writeFiles_commit_atomic
    (patchFn : FileSystem → String → String → Option FileSystem)
    (fs : FileSystem) (hist : History) (edits : List FileEdit) (msg : String)
    (commitOk : Bool)
    (hne : edits ≠ [])
    (hmodes : ∀ e ∈ edits, e.mode = "create" ∨ e.mode = "replace" ∨ e.mode = "patch") :
    ((writeFiles patchFn fs hist edits msg commitOk).2.2.success = true
      ∧ (writeFiles patchFn fs hist edits msg commitOk).2.2.errors = []
      ∧ (writeFiles patchFn fs hist edits msg commitOk).2.1 =
          hist ++ [(msg,
            (writeFiles patchFn fs hist edits msg commitOk).2.2.filesCreated
              ++ (writeFiles patchFn fs hist edits msg commitOk).2.2.filesModified)])
    ∨ ((writeFiles patchFn fs hist edits msg commitOk).2.1 = hist
      ∧ (writeFiles patchFn fs hist edits msg commitOk).2.2.success = false
      ∧ (writeFiles patchFn fs hist edits msg commitOk).2.2.errors ≠ []) := by
  have hcomb := foldl_applyEdit_nonempty patchFn edits
    { fs := fs, filesCreated := [], filesModified := [], errors := [] }
    hmodes hne
  simp only [writeFiles]
  by_cases herr : (edits.foldl (applyEdit patchFn)
      { fs := fs, filesCreated := [], filesModified := [], errors := [] }).errors = []
  · have hmod : (edits.foldl (applyEdit patchFn)
        { fs := fs, filesCreated := [], filesModified := [], errors := [] }).filesCreated
        ++ (edits.foldl (applyEdit patchFn)
        { fs := fs, filesCreated := [], filesModified := [], errors := [] }).filesModified
        ≠ [] := by
      intro hc
      rw [herr, hc] at hcomb
      simp at hcomb
    rw [herr] at hcomb ⊢
    cases commitOk with
    | true =>
        left
        simp_all [List.isEmpty_iff]
    | false =>
        right
        simp_all [List.isEmpty_iff]
  · right
    have : ((edits.foldl (applyEdit patchFn)
        { fs := fs, filesCreated := [], filesModified := [], errors := [] }).filesCreated
        ++ (edits.foldl (applyEdit patchFn)
        { fs := fs, filesCreated := [], filesModified := [], errors := [] }).filesModified).isEmpty
        = true ∨ ¬(edits.foldl (applyEdit patchFn)
        { fs := fs, filesCreated := [], filesModified := [], errors := [] }).errors.isEmpty
        = true := by
      right
      simp [List.isEmpty_iff, herr]
    simp_all [List.isEmpty_iff]

/-- Witness for C2 (amended): a one-file create with a succeeding commit
lands in the first disjunct — one history entry covering the created path. -/
theorem writeFiles_commit_atomic_witness :
    ((writeFiles (fun _ _ _ => none) [] [] [⟨"a.py", "create", some "x = 1", none⟩]
        "init" true).2.2.success = true
      ∧ (writeFiles (fun _ _ _ => none) [] [] [⟨"a.py", "create", some "x = 1", none⟩]
        "init" true).2.2.errors = []
      ∧ (writeFiles (fun _ _ _ => none) [] [] [⟨"a.py", "create", some "x = 1", none⟩]
        "init" true).2.1 =
          [] ++ [("init",
            (writeFiles (fun _ _ _ => none) [] [] [⟨"a.py", "create", some "x = 1", none⟩]
              "init" true).2.2.filesCreated
              ++ (writeFiles (fun _ _ _ => none) [] [] [⟨"a.py", "create", some "x = 1", none⟩]
              "init" true).2.2.filesModified)])
    ∨ ((writeFiles (fun _ _ _ => none) [] [] [⟨"a.py", "create", some "x = 1", none⟩]
        "init" true).2.1 = []
      ∧ (writeFiles (fun _ _ _ => none) [] [] [⟨"a.py", "create", some "x = 1", none⟩]
        "init" true).2.2.success = false
      ∧ (writeFiles (fun _ _ _ => none) [] [] [⟨"a.py", "create", some "x = 1", none⟩]
        "init" true).2.2.errors ≠ []) :=
  writeFiles_commit_atomic (fun _ _ _ => none) [] []
    [⟨"a.py", "create", some "x = 1", none⟩] "init" true
    (by decide) (by decide)

/-- Claim C7: in `RepoService.write_files`, a `create` edit on an existing
path only reports `File already exists` and writes nothing; a `patch` edit
on a missing path only reports `Cannot patch non-existent file`; a `replace`
edit writes its content and reports no error whether or not the path already
exists (the file tree is universally quantified). -/
theorem fileEdit_mode_contract
    (patchFn : FileSystem → String → String → Option FileSystem)
    (acc : EditAcc) (p c : String) (cc pb : Option String) :
    ((fsGet acc.fs p).isSome →
      applyEdit patchFn acc ⟨p, "create", some c, pb⟩ =
        { acc with errors := acc.errors ++ ["File already exists: " ++ p] })
    ∧ (fsGet acc.fs p = none →
      applyEdit patchFn acc ⟨p, "patch", cc, pb⟩ =
        { acc with errors := acc.errors ++ ["Cannot patch non-existent file: " ++ p] })
    ∧ (applyEdit patchFn acc ⟨p, "replace", some c, pb⟩).fs = fsSet acc.fs p c
    ∧ (applyEdit patchFn acc ⟨p, "replace", some c, pb⟩).errors = acc.errors := by
  refine ⟨?_, ?_, ?_, ?_⟩
  · intro h
    simp [applyEdit, h]
  · intro h
    simp [applyEdit, h]
  · simp only [applyEdit]
    split_ifs <;> simp_all
  · simp only [applyEdit]
    split_ifs <;> simp_all

/-- Witness for C7: against a tree holding `a.py`, creating `a.py` errors,
patching missing `b.py` errors, and replacing existing `a.py` writes. -/
theorem fileEdit_mode_contract_witness :
    (applyEdit (fun _ _ _ => none) ⟨[("a.py", "old")], [], [], []⟩
        ⟨"a.py", "create", some "new", none⟩).errors = ["File already exists: a.py"]
    ∧ (applyEdit (fun _ _ _ => none) ⟨[("a.py", "old")], [], [], []⟩
        ⟨"b.py", "patch", none, some "@@ -1 +1 @@"⟩).errors
        = ["Cannot patch non-existent file: b.py"]
    ∧ (applyEdit (fun _ _ _ => none) ⟨[("a.py", "old")], [], [], []⟩
        ⟨"a.py", "replace", some "new", none⟩).fs = [("a.py", "new")] := by
  refine ⟨?_, ?_, ?_⟩
  · rw [(fileEdit_mode_contract (fun _ _ _ => none) ⟨[("a.py", "old")], [], [], []⟩
        "a.py" "new" none none).1 (by decide)]
    decide
  · rw [(fileEdit_mode_contract (fun _ _ _ => none) ⟨[("a.py", "old")], [], [], []⟩
        "b.py" "new" none (some "@@ -1 +1 @@")).2.1 (by decide)]
    decide
  · rw [(fileEdit_mode_contract (fun _ _ _ => none) ⟨[("a.py", "old")], [], [], []⟩
        "a.py" "new" none none).2.2.1]
    decide

/-- Claim C8 counterexample: two contents that differ only in letter case
(their lowercasings coincide) and, read case-insensitively, contain the same
inference keywords, are mapped to different paths at the same block index:
the entry-point rule matches `if __name__ == "__main__"` and `main()`
against the raw content case-sensitively. -/
theorem filename_inference_entry_rule_case_sensitive :
    lowerStr "if __name__ == \"__main__\":\n    main()" =
      lowerStr "IF __NAME__ == \"__MAIN__\":\n    MAIN()"
    ∧ intelligentFilename "if __name__ == \"__main__\":\n    main()" 0 = "main.py"
    ∧ intelligentFilename "IF __NAME__ == \"__MAIN__\":\n    MAIN()" 0
        = "modules/module_1.py"
    ∧ ("main.py" : String) ≠ "modules/module_1.py" := by
  decide

/-- Claim C8 (amended): filename inference is deterministic and first-match
in the fixed priority order; every keyword rule after the first tests the
lowercased content and is therefore case-insensitive, while the entry-point
rule tests the raw content. Hence any two contents with equal lowercasings
that also agree on the three raw entry-point checks receive the same path at
the same index; case (or punctuation) differences can only change the result
through those three raw checks. -/
theorem filename_inference_deterministic
    (c1 c2 : String) (i : Nat)
    (hlow : lowerStr c1 = lowerStr c2)
    (h1 : containsStr c1 "if __name__ == \"__main__\"" =
      containsStr c2 "if __name__ == \"__main__\"")
    (h2 : containsStr c1 "main()" = containsStr c2 "main()")
    (h3 : containsStr c1 "app()" = containsStr c2 "app()") :
    intelligentFilename c1 i = intelligentFilename c2 i := by
  simp only [intelligentFilename]
  simp only [hlow, h1, h2, h3]

/-- Witness for C8 (amended): `Add TWO numbers` and `add two numbers` agree
after lowercasing and on the raw entry-point checks, so they get the same
inferred path. -/
theorem filename_inference_deterministic_witness :
    intelligentFilename "Add TWO numbers" 0 = intelligentFilename "add two numbers" 0 :=
  filename_inference_deterministic "Add TWO numbers" "add two numbers" 0
    (by decide) (by decide) (by decide) (by decide)

/-- Stripping whitespace keeps only characters of the original list. -/
theorem stripChars_mem {a : Char} {l : List Char} (h : a ∈ stripChars l) : a ∈ l := by
  unfold stripChars at h
  exact (List.dropWhile_sublist _).mem
    (List.mem_reverse.mp ((List.dropWhile_sublist _).mem (List.mem_reverse.mp h)))

/-- The rest after consuming a literal is part of the input. -/
theorem consumeLit_mem : ∀ (lit l r : List Char), consumeLit lit l = some r →
    ∀ {a : Char}, a ∈ r → a ∈ l := by
  intro lit
  induction lit with
  | nil =>
      intro l r h a ha
      simp only [consumeLit, Option.some.injEq] at h
      exact h ▸ ha
  | cons c cs ih =>
      intro l r h a ha
      cases l with
      | nil => exact absurd h (by simp [consumeLit])
      | cons d ds =>
          simp only [consumeLit] at h
          split at h
          · exact List.mem_cons_of_mem d (ih ds r h ha)
          · exact absurd h (by simp)

/-- The rest after consuming an identifier is part of the input. -/
theorem takeIdent_mem {l : List Char} {pr : List Char × List Char}
    (h : takeIdent l = some pr) {a : Char} (ha : a ∈ pr.2) : a ∈ l := by
  cases l with
  | nil => exact absurd h (by simp [takeIdent])
  | cons c rest =>
      simp only [takeIdent] at h
      split at h
      · cases h
        exact List.mem_cons_of_mem c ((List.dropWhile_sublist _).mem ha)
      · exact absurd h (by simp)

/-- The rest after consuming mandatory whitespace is part of the input. -/
theorem ws1_mem {l r : List Char} (h : ws1 l = some r) {a : Char}
    (ha : a ∈ r) : a ∈ l := by
  cases l with
  | nil => exact absurd h (by simp [ws1])
  | cons c rest =>
      simp only [ws1] at h
      split at h
      · cases h
        exact List.mem_cons_of_mem c ((List.dropWhile_sublist _).mem ha)
      · exact absurd h (by simp)

/-- Consuming dotted components keeps only characters of the input. -/
theorem consumeDotsGo_mem : ∀ (fuel : Nat) (l : List Char) {a : Char},
    a ∈ consumeDotsGo fuel l → a ∈ l := by
  intro fuel
  induction fuel with
  | zero => intro l a h; exact h
  | succ n ih =>
      intro l a h
      cases l with
      | nil => exact absurd h (by simp [consumeDotsGo])
      | cons c rest =>
          simp only [consumeDotsGo] at h
          split at h
          · split at h
            · next p hp =>
                exact List.mem_cons_of_mem c (takeIdent_mem hp (ih p.2 h))
            · exact h
          · exact h

/-- The rest after a dotted module path is part of the input. -/
theorem takeDotted_mem {l : List Char} {pr : List Char × List Char}
    (h : takeDotted l = some pr) {a : Char} (ha : a ∈ pr.2) : a ∈ l := by
  unfold takeDotted at h
  cases ht : takeIdent l with
  | none => rw [ht] at h; exact absurd h (by simp)
  | some p =>
      rw [ht] at h
      cases h
      exact takeIdent_mem ht (consumeDotsGo_mem _ _ ha)

/-- Without a dot in the input, there are no dotted components to consume. -/
theorem consumeDots_eq_self {l : List Char} (hd : '.' ∉ l) : consumeDots l = l := by
  cases l with
  | nil => rfl
  | cons c rest =>
      have hc : ¬(c = '.') := fun h => hd (h ▸ List.mem_cons_self c rest)
      show consumeDotsGo (c :: rest).length (c :: rest) = c :: rest
      rw [List.length_cons]
      simp [consumeDotsGo, hc]

/-- Without a dot in the input, a dotted module path is a bare identifier. -/
theorem takeDotted_eq_takeIdent {l : List Char} (hd : '.' ∉ l) :
    takeDotted l = takeIdent l := by
  unfold takeDotted
  cases ht : takeIdent l with
  | none => rfl
  | some p =>
      have hdr : '.' ∉ p.2 := fun h => hd (takeIdent_mem ht h)
      show some (p.1, consumeDots p.2) = some p
      rw [consumeDots_eq_self hdr]

/-- Consuming the literal `import` rules out consuming the literal `from`
from the same input. -/
theorem consumeLit_import_from {s r : List Char}
    (h : consumeLit "import".data s = some r) :
    consumeLit "from".data s = none := by
  have himp : "import".data = 'i' :: "mport".data := rfl
  have hfrom : "from".data = 'f' :: "rom".data := rfl
  cases s with
  | nil => rw [himp] at h; exact absurd h (by simp [consumeLit])
  | cons c cs =>
      rw [himp] at h
      simp only [consumeLit] at h
      split at h
      · next hci =>
          rw [hfrom]
          simp only [consumeLit]
          rw [if_neg (by rw [← hci]; decide)]
      · exact absurd h (by simp)

/-- Without commas and dots, the spec-level comma-separated module list is
the single module captured by the source's identifier scan. -/
theorem specModuleList_no_comma {l : List Char} (hc : ',' ∉ l) (hd : '.' ∉ l) :
    specModuleList l =
      match takeIdent l with
      | some pr => [String.mk pr.1]
      | none => [] := by
  show specModuleListGo (l.length + 1) l = _
  rw [specModuleListGo, takeDotted_eq_takeIdent hd]
  cases ht : takeIdent l with
  | none => rfl
  | some pr =>
      obtain ⟨m, r⟩ := pr
      dsimp only
      cases hr : r.dropWhile isPyWS with
      | nil => rfl
      | cons c r3 =>
          have hcl : c ∈ l :=
            takeIdent_mem ht ((List.dropWhile_sublist _).mem
              (hr ▸ List.mem_cons_self c r3))
          have hcc : ¬(c = ',') := fun h => hc (h ▸ hcl)
          simp [hcc]

/-- Each line of a split is made of characters of the split input. -/
theorem splitOnNl_mem : ∀ {l line : List Char}, line ∈ splitOnNl l →
    ∀ {a : Char}, a ∈ line → a ∈ l := by
  intro l
  induction l with
  | nil =>
      intro line hline a ha
      simp only [splitOnNl, List.mem_singleton] at hline
      subst hline
      exact absurd ha (by simp)
  | cons c rest ih =>
      intro line hline a ha
      simp only [splitOnNl] at hline
      by_cases hnl : c = '\n'
      · rw [if_pos hnl] at hline
        rcases List.mem_cons.mp hline with h | h
        · subst h; exact absurd ha (by simp)
        · exact List.mem_cons_of_mem c (ih h ha)
      · rw [if_neg hnl] at hline
        cases hsr : splitOnNl rest with
        | nil =>
            rw [hsr] at hline
            simp only [List.mem_singleton] at hline
            subst hline
            simp only [List.mem_singleton] at ha
            exact ha ▸ List.mem_cons_self c rest
        | cons h0 t =>
            rw [hsr] at hline
            rcases List.mem_cons.mp hline with h | h
            · subst h
              rcases List.mem_cons.mp ha with h2 | h2
              · exact h2 ▸ List.mem_cons_self c rest
              · exact List.mem_cons_of_mem c
                  (ih (hsr ▸ List.mem_cons_self h0 t) h2)
            · exact List.mem_cons_of_mem c
                (ih (hsr ▸ List.mem_cons_of_mem h0 h) ha)

/-- Without commas and dots in a stripped line, the spec-level per-line
module list is exactly the source's captured module (as a zero- or
one-element list). -/
theorem specLine_eq_aux {s : List Char} (hc : ',' ∉ s) (hd : '.' ∉ s) :
    (orElseO (specLineFirst s) (specLineSecond s)).getD []
      = (orElseO (importLineFirst s) (importLineSecond s)).toList := by
  unfold specLineFirst specLineSecond importLineFirst importLineSecond
  cases h1 : consumeLit "import".data s with
  | some r =>
      rw [consumeLit_import_from h1]
      dsimp only [Option.bind]
      cases h2 : ws1 r with
      | none => rfl
      | some r2 =>
          dsimp only [Option.bind, Option.map]
          have hsub : ∀ a : Char, a ∈ r2 → a ∈ s := fun a h =>
            consumeLit_mem _ _ _ h1 (ws1_mem h2 h)
          rw [specModuleList_no_comma
            (fun h => hc (hsub _ h)) (fun h => hd (hsub _ h))]
          cases ht : takeIdent r2 <;> rfl
  | none =>
      dsimp only [Option.bind]
      cases h1b : consumeLit "from".data s with
      | none => rfl
      | some r =>
          dsimp only [Option.bind]
          cases h2 : ws1 r with
          | none => rfl
          | some r2 =>
              dsimp only [Option.bind]
              have hsub : ∀ a : Char, a ∈ r2 → a ∈ s := fun a h =>
                consumeLit_mem _ _ _ h1b (ws1_mem h2 h)
              rw [takeDotted_eq_takeIdent (fun h => hd (hsub _ h))]
              cases ht : takeIdent r2 with
              | none => rfl
              | some pr =>
                  dsimp only [Option.bind]
                  cases h3 : ws1 pr.2 with
                  | none => rfl
                  | some r4 =>
                      dsimp only [Option.bind]
                      cases h4 : consumeLit "import".data r4 <;> rfl

/-- Without commas and dots in a line, the spec-level module list of the
line is exactly the source's captured module (as a zero- or one-element
list). -/
theorem specLineModules_eq {line : List Char} (hc : ',' ∉ line)
    (hd : '.' ∉ line) :
    specLineModules line = (importLineModule line).toList := by
  unfold specLineModules importLineModule
  exact specLine_eq_aux
    (fun h => hc (stripChars_mem h)) (fun h => hd (stripChars_mem h))

/-- Folding the per-line source extraction over lines agrees with folding
the per-line spec extraction, once the per-line results agree. -/
theorem depsFold_eq (lines : List (List Char))
    (h : ∀ line ∈ lines, specLineModules line = (importLineModule line).toList) :
    ∀ acc : Finset String,
      lines.foldl
        (fun acc line =>
          match importLineModule line with
          | some m =>
              if m ∈ stdlibModules then acc else insert (remapPackage m) acc
          | none => acc) acc
      = lines.foldl
        (fun acc line =>
          (specLineModules line).foldl
            (fun acc2 m =>
              if m ∈ stdlibModules then acc2 else insert (remapPackage m) acc2)
            acc) acc := by
  induction lines with
  | nil => intro acc; rfl
  | cons line rest ih =>
      intro acc
      rw [List.foldl_cons, List.foldl_cons,
        h line (List.mem_cons_self line rest)]
      have hrest := fun l hl => h l (List.mem_cons_of_mem line hl)
      cases hm : importLineModule line with
      | none => simpa [hm] using ih hrest acc
      | some m => simpa [hm] using ih hrest _

/-- Without commas and dots in a content, the source's dependency extraction
computes exactly the spec-level dependency set. -/
theorem extractDependencies_eq_spec (content : String)
    (hc : ',' ∉ content.data) (hd : '.' ∉ content.data) :
    extractDependencies content = specDependencies content := by
  unfold extractDependencies specDependencies
  exact depsFold_eq (splitOnNl content.data)
    (fun line hline => specLineModules_eq
      (fun h => hc (splitOnNl_mem hline h))
      (fun h => hd (splitOnNl_mem hline h))) ∅

/-- Claim C9 counterexample: the batch containing one file whose only
non-blank line is `import flask, requests` yields the manifest `{flask}`,
while the spec's set of top-level module names appearing in that import
statement is `{flask, requests}` — the source's regex captures only the
first module of a comma-separated import list. -/
theorem dependency_manifest_misses_comma_imports :
    depsOfFiles [("a.py", "import flask, requests")] ["a.py"]
      ≠ specDepsOfFiles [("a.py", "import flask, requests")] ["a.py"]
    ∧ depsOfFiles [("a.py", "import flask, requests")] ["a.py"] = {"flask"}
    ∧ specDepsOfFiles [("a.py", "import flask, requests")] ["a.py"]
      = {"flask", "requests"} := by
  decide

/-- Folding the per-file source extraction over a batch agrees with folding
the per-file spec extraction when every readable content is comma- and
dot-free. -/
theorem depsOfFiles_fold_eq (fs : FileSystem) :
    ∀ created : List String,
      (∀ p ∈ created, contentOk (fsGet fs p) = true) →
      ∀ acc : Finset String,
        created.foldl
          (fun acc p =>
            if endsWithPy p then
              match fsGet fs p with
              | some content => acc ∪ extractDependencies content
              | none => acc
            else acc) acc
        = created.foldl
          (fun acc p =>
            if endsWithPy p then
              match fsGet fs p with
              | some content => acc ∪ specDependencies content
              | none => acc
            else acc) acc := by
  intro created
  induction created with
  | nil => intro _ acc; rfl
  | cons p rest ih =>
      intro hok acc
      rw [List.foldl_cons, List.foldl_cons]
      have hstep :
          (if endsWithPy p then
            match fsGet fs p with
            | some content => acc ∪ extractDependencies content
            | none => acc
          else acc)
          = (if endsWithPy p then
            match fsGet fs p with
            | some content => acc ∪ specDependencies content
            | none => acc
          else acc) := by
        by_cases hpy : endsWithPy p = true
        · rw [if_pos hpy, if_pos hpy]
          cases hcont : fsGet fs p with
          | none => rfl
          | some content =>
              have h1 := hok p (List.mem_cons_self p rest)
              rw [hcont] at h1
              simp only [contentOk, Bool.and_eq_true, Bool.not_eq_true',
                decide_eq_false_iff_not] at h1
              dsimp only
              rw [extractDependencies_eq_spec content h1.1 h1.2]
        · rw [if_neg hpy, if_neg hpy]
      rw [hstep]
      exact ih (fun q hq => hok q (List.mem_cons_of_mem p hq)) _

/-- Claim C9 (amended): for every batch whose newly written `.py` files are
free of commas and dots — so each import-style line names one single
undotted module — the produced dependency manifest equals exactly the set
of top-level module names appearing in those files' import-style
statements, minus the standard-library exclusion set, remapped through
the import-name-to-package-name table. In general, only the first module of a
comma-separated import list and only undotted `from` modules are
captured. -/
theorem dependency_manifest_correct (fs : FileSystem) (created : List String)
    (hok : ∀ p ∈ created, contentOk (fsGet fs p) = true) :
    depsOfFiles fs created = specDepsOfFiles fs created := by
  unfold depsOfFiles specDepsOfFiles
  exact depsOfFiles_fold_eq fs created hok ∅

/-- Witness for C9 (amended): a one-file batch importing `flask` and `os`
produces the manifest `{flask}` on both the source and the spec reading. -/
theorem dependency_manifest_correct_witness :
    depsOfFiles [("a.py", "import flask\nimport os\nx = 1")] ["a.py"]
      = specDepsOfFiles [("a.py", "import flask\nimport os\nx = 1")] ["a.py"] :=
  dependency_manifest_correct [("a.py", "import flask\nimport os\nx = 1")]
    ["a.py"] (by decide)
